import Mathlib

/-!
Verification development for the `argsparser` C++ header
(`include/argsparser.hpp`): a shallow embedding of the typed-argument
model and of `Parser::parse`, together with theorems about the
behaviour the specification describes.

Modelling conventions:
* C++ `std::string` is Lean `String`; character-level processing is done
  on `String.data : List Char`.
* The C conversion functions `strtol` / `strtoll`, `strtoul` / `strtoull`
  and `strtof` / `strtod` are modelled for an LP64 platform (`long`,
  `long long`, `unsigned long`, `unsigned long long` are all 64 bits
  wide, as on the Linux/x86-64 toolchain the repository builds with).
  The models return the clamped value, the unconsumed tail of the input
  (`[]` means the end pointer reached the terminating NUL) and an
  `erange` flag standing for `errno == ERANGE`.
* The floating-point models work over exact rationals: the decimal /
  scientific syntax accepted by `strtof` / `strtod` is modelled exactly,
  the value is kept as the exact rational (rounding to the nearest
  representable float, the hexadecimal form and the `inf` / `nan`
  literal forms are not modelled; no settled claim depends on them),
  and `erange` is overflow past the type's largest finite magnitude.
* Machine integers are `Int` / `Nat` with the exact two's-complement
  bounds written out; wraparound of the unsigned conversions is an
  explicit `% 2 ^ 64`.
-/

namespace ArgsParser

/-- `ParseResult` from `argsparser.hpp` (lines 22-28). -/
inductive ParseResult where
  | SUCCESS
  | UNKNOWN_OPTION
  | MISSING_VALUE
  | INVALID_VALUE
  | HELP_REQUESTED
deriving DecidableEq, Repr

/-- The typed values an argument can hold: one constructor per family of
`Argument<T>` specializations (`bool`, `std::string`, the integer widths,
and the floating kinds, the latter modelled as exact rationals). -/
inductive Value where
  | vB : Bool → Value
  | vS : String → Value
  | vI : Int → Value
  | vQ : ℚ → Value
deriving DecidableEq

/-- The declaration-time kind of an argument: one per `Argument<T>`
specialization present in `argsparser.hpp`. -/
inductive ArgKind where
  | kBool
  | kStr
  | kInt16
  | kInt32
  | kInt64
  | kUInt32
  | kUInt64
  | kFloat
  | kDouble
deriving DecidableEq

/-- One declared argument: the fields of `ArgumentBase` (lines 37-60)
plus the typed `value_` / `validator_` members of the specializations.
The validator is a predicate over the typed value, as in the source. -/
structure Arg where
  name : String
  shortName : String
  description : String
  required : Bool
  kind : ArgKind
  validator : Option (Value → Bool)
  value : Value
  isSet : Bool

/-- Characters treated as whitespace by the C conversion functions
(`isspace` in the C locale): space, `\t`, `\n`, `\v`, `\f`, `\r`. -/
def isCSpace (c : Char) : Bool :=
  c == ' ' || c == '\t' || c == '\n' || c == Char.ofNat 11 || c == Char.ofNat 12 || c == '\r'

/-- Skip the leading C-locale whitespace, as `strtol`-family functions do. -/
def skipWs : List Char → List Char
  | [] => []
  | c :: cs => if isCSpace c then skipWs cs else c :: cs

/-- Is `c` a decimal digit? -/
def isDig (c : Char) : Bool := c.isDigit

/-- Split off the longest leading run of decimal digits. -/
def takeDigits : List Char → List Char × List Char
  | [] => ([], [])
  | c :: cs =>
    if isDig c then
      let (ds, rest) := takeDigits cs
      (c :: ds, rest)
    else ([], c :: cs)

/-- Numeric value of a digit string (most significant digit first). -/
def digitsVal (ds : List Char) : Nat :=
  ds.foldl (fun acc c => 10 * acc + (c.toNat - '0'.toNat)) 0

/-- Optional leading sign: returns (isNegative, remaining characters). -/
def takeSign : List Char → Bool × List Char
  | '-' :: cs => (true, cs)
  | '+' :: cs => (false, cs)
  | cs => (false, cs)

/-- Result of a C integer conversion call: the (clamped) returned value,
the tail of the input the end pointer was left at (`[]` = the NUL), and
whether `errno` was set to `ERANGE`. -/
structure CIntResult where
  val : Int
  rest : List Char
  erange : Bool
deriving DecidableEq

/-- `LONG_MAX` = `LLONG_MAX` on LP64. -/
def longMax : Int := 2 ^ 63 - 1

/-- `LONG_MIN` = `LLONG_MIN` on LP64. -/
def longMin : Int := -(2 ^ 63)

/-- `ULONG_MAX` = `ULLONG_MAX` on LP64. -/
def ulongMax : Nat := 2 ^ 64 - 1

/-- Model of `strtol` / `strtoll` (64-bit `long`) in base 10: skip
whitespace, optional sign, longest digit run; if no digit was consumed
the conversion fails and the end pointer is reset to the start of the
input; on overflow the result clamps to `LONG_MAX` / `LONG_MIN` with
`ERANGE`. -/
def strtolM (s : List Char) : CIntResult :=
  let t := skipWs s
  let (neg, t1) := takeSign t
  let (ds, rest) := takeDigits t1
  if ds.isEmpty then { val := 0, rest := s, erange := false }
  else
    let n : Int := (if neg then -(digitsVal ds : Int) else (digitsVal ds : Int))
    if n > longMax then { val := longMax, rest := rest, erange := true }
    else if n < longMin then { val := longMin, rest := rest, erange := true }
    else { val := n, rest := rest, erange := false }

/-- Result of `strtoul` / `strtoull`: value is a `Nat` below `2 ^ 64`. -/
structure CUIntResult where
  val : Nat
  rest : List Char
  erange : Bool
deriving DecidableEq

/-- Model of `strtoul` / `strtoull` (64-bit `unsigned long`) in base 10:
a leading `-` is accepted and the converted magnitude is negated with
unsigned wraparound modulo `2 ^ 64`; a magnitude above `ULONG_MAX`
clamps to `ULONG_MAX` with `ERANGE`. -/
def strtoulM (s : List Char) : CUIntResult :=
  let t := skipWs s
  let (neg, t1) := takeSign t
  let (ds, rest) := takeDigits t1
  if ds.isEmpty then { val := 0, rest := s, erange := false }
  else
    let m := digitsVal ds
    if m > ulongMax then { val := ulongMax, rest := rest, erange := true }
    else { val := (if neg then (2 ^ 64 - m) % 2 ^ 64 else m), rest := rest, erange := false }

/-- Result of a C floating conversion: the exact rational value of the
consumed decimal text, the unconsumed tail, and the overflow flag. -/
structure CFloatResult where
  val : ℚ
  rest : List Char
  erange : Bool
deriving DecidableEq

/-- Largest finite `float` magnitude, `FLT_MAX`, as an exact rational. -/
def fltMax : ℚ := ((2 ^ 24 - 1 : ℚ)) * 2 ^ 104

/-- Largest finite `double` magnitude, `DBL_MAX`, as an exact rational. -/
def dblMax : ℚ := ((2 ^ 53 - 1 : ℚ)) * 2 ^ 971

/-- Model of the decimal / scientific syntax of `strtof` / `strtod`
(parameterised by the kind's largest finite magnitude, used for the
`ERANGE` overflow flag): whitespace, optional sign, digits with an
optional fractional part (at least one digit on one side of the dot),
then an optional well-formed exponent part; if the mantissa is missing
the conversion fails and the end pointer is reset to the start. -/
def strtofM (maxAbs : ℚ) (s : List Char) : CFloatResult :=
  let t := skipWs s
  let (neg, t1) := takeSign t
  let (ip, t2) := takeDigits t1
  let (fp, t3) :=
    match t2 with
    | '.' :: r => takeDigits r
    | _ => (([] : List Char), t2)
  if ip.isEmpty && fp.isEmpty then { val := 0, rest := s, erange := false }
  else
    let mant : ℚ := (digitsVal ip : ℚ) + (digitsVal fp : ℚ) / (10 : ℚ) ^ fp.length
    let (expo, t4) : Int × List Char :=
      match t3 with
      | 'e' :: r =>
        let (eneg, r1) := takeSign r
        let (ed, r2) := takeDigits r1
        if ed.isEmpty then (0, t3)
        else ((if eneg then -(digitsVal ed : Int) else (digitsVal ed : Int)), r2)
      | 'E' :: r =>
        let (eneg, r1) := takeSign r
        let (ed, r2) := takeDigits r1
        if ed.isEmpty then (0, t3)
        else ((if eneg then -(digitsVal ed : Int) else (digitsVal ed : Int)), r2)
      | _ => (0, t3)
    let q : ℚ := (if neg then -mant else mant) * (10 : ℚ) ^ expo
    { val := q, rest := t4, erange := (maxAbs < |q|) }

/-- Shared body of the signed-integer `Argument<intN_t>::parse` methods
(`int16_t` lines 446-470, `int32_t` lines 680-704, `int64_t` lines
906-930 of `argsparser.hpp`), parameterised by the kind's exact bounds:
convert with `strtol`-family, reject when the end pointer is not at the
NUL, reject `ERANGE` or a value outside `[lo, hi]`, then assign
`value_`, run the validator (note: after the assignment), and set
`isSet_` on success. -/
def intParse (lo hi : Int) (a : Arg) (s : String) : Bool × Arg :=
  let r := strtolM s.data
  if ¬r.rest.isEmpty then (false, a)
  else if r.erange || r.val > hi || r.val < lo then (false, a)
  else
    let a1 : Arg := { a with value := Value.vI r.val }
    match a.validator with
    | some f => if f a1.value then (true, { a1 with isSet := true }) else (false, a1)
    | none => (true, { a1 with isSet := true })

/-- Shared body of the unsigned-integer `Argument<uintN_t>::parse`
methods (`uint32_t` lines 566-595, `uint64_t` lines 791-821),
parameterised by the kind's maximum: convert with `strtoul`-family,
reject an unconsumed tail, reject `ERANGE` or a value above `hi`, reject
any input whose first character is `-`, then assign, validate, set. -/
def uintParse (hi : Nat) (a : Arg) (s : String) : Bool × Arg :=
  let r := strtoulM s.data
  if ¬r.rest.isEmpty then (false, a)
  else if r.erange || r.val > hi then (false, a)
  else if s.data.head? == some '-' then (false, a)
  else
    let a1 : Arg := { a with value := Value.vI (Int.ofNat r.val) }
    match a.validator with
    | some f => if f a1.value then (true, { a1 with isSet := true }) else (false, a1)
    | none => (true, { a1 with isSet := true })

/-- Shared body of `Argument<float>::parse` (lines 1019-1042) and
`Argument<double>::parse` (lines 1148-1171), parameterised by the kind's
largest finite magnitude: convert with `strtof` / `strtod`, reject an
unconsumed tail, reject `ERANGE`, then assign, validate, set. -/
def floatParse (maxAbs : ℚ) (a : Arg) (s : String) : Bool × Arg :=
  let r := strtofM maxAbs s.data
  if ¬r.rest.isEmpty then (false, a)
  else if r.erange then (false, a)
  else
    let a1 : Arg := { a with value := Value.vQ r.val }
    match a.validator with
    | some f => if f a1.value then (true, { a1 with isSet := true }) else (false, a1)
    | none => (true, { a1 with isSet := true })

/-- The virtual `ArgumentBase::parse` call, dispatched on the argument's
kind exactly as the `Argument<T>` specializations implement it:
* `kBool` (lines 364-369): never fails, sets the value to `true`;
* `kStr` (lines 293-301): validator first (on the raw string), then
  assign and set;
* the numeric kinds: the corresponding specialization body above. -/
def argParseStr (a : Arg) (s : String) : Bool × Arg :=
  match a.kind with
  | .kBool => (true, { a with value := Value.vB true, isSet := true })
  | .kStr =>
    match a.validator with
    | some f =>
      if f (Value.vS s) then (true, { a with value := Value.vS s, isSet := true })
      else (false, a)
    | none => (true, { a with value := Value.vS s, isSet := true })
  | .kInt16 => intParse (-(2 ^ 15)) (2 ^ 15 - 1) a s
  | .kInt32 => intParse (-(2 ^ 31)) (2 ^ 31 - 1) a s
  | .kInt64 => intParse (-(2 ^ 63)) (2 ^ 63 - 1) a s
  | .kUInt32 => uintParse (2 ^ 32 - 1) a s
  | .kUInt64 => uintParse (2 ^ 64 - 1) a s
  | .kFloat => floatParse fltMax a s
  | .kDouble => floatParse dblMax a s

/-- The parser's registries: `arguments_` and `positionalArguments_` are
the two owned vectors; the two name maps hold, in place of the raw
`ArgumentBase*` pointers of the source, the pointee's index into
`arguments_` (pointer identity = slot in the owning vector). -/
structure ParserState where
  programName : String
  description : String
  args : List Arg
  longMap : List (String × Nat)
  shortMap : List (String × Nat)
  posArgs : List Arg
  lastError : String

/-- `std::map::operator[]` followed by assignment: replace the value at
the key if present, otherwise add the binding. -/
def mapInsert (m : List (String × Nat)) (k : String) (v : Nat) : List (String × Nat) :=
  match m with
  | [] => [(k, v)]
  | (k', v') :: rest => if k' = k then (k, v) :: rest else (k', v') :: mapInsert rest k v

/-- `std::map::find`: the value bound to the key, if any. -/
def mapFind (m : List (String × Nat)) (k : String) : Option Nat :=
  match m with
  | [] => none
  | (k', v') :: rest => if k' = k then some v' else mapFind rest k

/-- A dummy argument record; surfaces only where the source would
dereference a dangling pointer, which well-formed states never do. -/
def dummyArg : Arg :=
  { name := "", shortName := "", description := "", required := false,
    kind := .kBool, validator := none, value := Value.vB false, isSet := false }

/-- The argument object a stored index points at. -/
def getArg (P : ParserState) (i : Nat) : Arg := (P.args.get? i).getD dummyArg

/-- In-place mutation of the argument object an index points at (the
maps alias into `args`, so both names observe the update). -/
def setArg (P : ParserState) (i : Nat) (a : Arg) : ParserState :=
  { P with args := P.args.set i a }

/-- The `dynamic_cast<Argument<bool>*>` test the dispatcher uses to
recognise flags. -/
def isBoolAt (P : ParserState) (i : Nat) : Bool := (getArg P i).kind == ArgKind.kBool

/-- A freshly constructed parser (`Parser::Parser`, lines 1277-1278). -/
def mkParser (programName description : String) : ParserState :=
  { programName := programName, description := description, args := [],
    longMap := [], shortMap := [], posArgs := [], lastError := "" }

/-- `Parser::addArgument<T>` (lines 1300-1314): construct the argument
with `isSet_ = false`, register it in `longNameMap_` and -
unconditionally, whatever the short name is - in `shortNameMap_`, and
append it to `arguments_`. The constructor call passes
`(required, defaultValue)` positionally; every specialization but
`Argument<bool>` declares its last two parameters in that order and
stores `value_ = defaultValue`, but `Argument<bool>` (lines 349-356)
declares them as `(defaultValue, required)` - so for the flag kind the
caller's `required` argument lands in the constructor's `defaultValue`
parameter and becomes the stored initial value, the declared default is
discarded, and `isRequired_` is forced to `false` in the constructor
body. -/
def ParserState.addArgument (P : ParserState) (kind : ArgKind)
    (name shortName description : String) (required : Bool) (dflt : Value) : ParserState :=
  let a : Arg :=
    { name := name, shortName := shortName, description := description,
      required := if kind = .kBool then false else required,
      kind := kind, validator := none,
      value := if kind = .kBool then Value.vB required else dflt,
      isSet := false }
  let idx := P.args.length
  { P with args := P.args ++ [a],
           longMap := mapInsert P.longMap name idx,
           shortMap := mapInsert P.shortMap shortName idx }

/-- Install a validator on a declared optional argument
(`Argument<T>::setValidator` through the handle `addArgument` returned;
the handle is the index of the slot just added). -/
def ParserState.setValidatorAt (P : ParserState) (i : Nat) (f : Value → Bool) : ParserState :=
  setArg P i { getArg P i with validator := some f }

/-- `Parser::addPositionalArgument<T>` (lines 1326-1335): append to
`positionalArguments_`; no map registration, empty short name. The
constructor call has the same positional `(required, defaultValue)`
shape as `addArgument`, so for the flag kind the same swapped
`Argument<bool>` parameter binding applies: `required` becomes the
stored initial value and the declared default is discarded. -/
def ParserState.addPositional (P : ParserState) (kind : ArgKind)
    (name description : String) (required : Bool) (dflt : Value) : ParserState :=
  let a : Arg :=
    { name := name, shortName := "", description := description,
      required := if kind = .kBool then false else required,
      kind := kind, validator := none,
      value := if kind = .kBool then Value.vB required else dflt,
      isSet := false }
  { P with posArgs := P.posArgs ++ [a] }

/-- `arg.find('=')` / `substr` split of a long token's text after the
`--`: the characters before the first `=` and, when a `=` is present,
the characters after it. -/
def splitAtEq : List Char → List Char × Option (List Char)
  | [] => ([], none)
  | c :: cs =>
    if c = '=' then ([], some cs)
    else
      let (n, v) := splitAtEq cs
      (c :: n, v)

/-- The grouped-short-flag test (`isGrouped`, lines 1410-1421): every
character of the token after `-` must resolve in the short-name map to a
flag (`Argument<bool>`) argument. -/
def groupedOk (P : ParserState) (suffix : List Char) : Bool :=
  suffix.all fun ch =>
    match mapFind P.shortMap (String.singleton ch) with
    | some idx => isBoolAt P idx
    | none => false

/-- The grouped-flag application loop (lines 1423-1436): set each
character's flag in turn; a failing `parse` would abort with the
flag-specific message (dead in practice, `Argument<bool>::parse` always
succeeds). The `none` lookup branch is unreachable under `groupedOk`
(the source dereferences the iterator unchecked there). -/
def applyFlagCluster (P : ParserState) : List Char → Bool × ParserState × String
  | [] => (true, P, "")
  | ch :: cs =>
    match mapFind P.shortMap (String.singleton ch) with
    | some idx =>
      let res := argParseStr (getArg P idx) "true"
      let P' := setArg P idx res.2
      if res.1 then applyFlagCluster P' cs
      else (false, P', "Invalid value for flag: -" ++ String.singleton ch)
    | none => applyFlagCluster P cs

/-- Outcome of dispatching one named option token: abort with a result
code, continue with the next token, or continue after additionally
consuming the following token as this option's value. -/
inductive StepOut where
  | serr (r : ParseResult) (P : ParserState)
  | snext (P : ParserState)
  | sconsume (P : ParserState)

/-- The dispatcher's common tail for a resolved option name
(`Parser::parse` lines 1448-1498): look the name up in the long-name or
short-name map, report an unknown option, let a flag parse `"true"`,
take the inline value or consume the next token (`MISSING_VALUE` when
there is none), and run the argument's parse, recording the
`INVALID_VALUE` message on failure. On every path the argument object's
own mutation (if any) is kept, as the source mutates it in place. -/
def dispatchOpt (P : ParserState) (isLong : Bool) (name : String)
    (iv : Option String) (rest : List String) : StepOut :=
  let pre : String := if isLong then "--" else "-"
  match (if isLong then mapFind P.longMap name else mapFind P.shortMap name) with
  | none => .serr .UNKNOWN_OPTION { P with lastError := "Unknown option: " ++ pre ++ name }
  | some idx =>
    if isBoolAt P idx then
      let res := argParseStr (getArg P idx) "true"
      let P' := setArg P idx res.2
      if res.1 then .snext P'
      else .serr .INVALID_VALUE { P' with lastError := "Invalid value for flag: " ++ pre ++ name }
    else
      match iv with
      | some v =>
        let res := argParseStr (getArg P idx) v
        let P' := setArg P idx res.2
        if res.1 then .snext P'
        else .serr .INVALID_VALUE
          { P' with lastError := "Invalid value for option: " ++ pre ++ name ++ " = " ++ v }
      | none =>
        match rest with
        | [] => .serr .MISSING_VALUE
            { P with lastError := "Missing value for option: " ++ pre ++ name }
        | v :: _ =>
          let res := argParseStr (getArg P idx) v
          let P' := setArg P idx res.2
          if res.1 then .sconsume P'
          else .serr .INVALID_VALUE
            { P' with lastError := "Invalid value for option: " ++ pre ++ name ++ " = " ++ v }

/-- Outcome of the main token loop: an early-returned error, or the
final state and the buffered positional values. -/
inductive LoopOut where
  | err (r : ParseResult) (P : ParserState)
  | ok (P : ParserState) (positional : List String)

/-- What the dispatcher decides to do with one raw token. -/
inductive TokClass where
  | positional
  | cluster (suffix : List Char)
  | named (isLong : Bool) (name : String) (iv : Option String)

/-- The token-shape decision of `Parser::parse` (lines 1368-1446):
* empty token or token not starting with `-`: a positional value;
* second character also `-`: a long option, split at the first `=` for
  an inline value;
* more than one character after the single `-` (`arg.length() > 2`):
  the ambiguous short form - a first character resolving in the
  short-name map to a known non-flag argument takes the remainder of the
  token as inline value; failing that, a token whose every suffix
  character resolves to a known flag is a grouped flag cluster; failing
  both, the whole suffix is a single short name with no inline value;
* otherwise: a single short name (everything after the `-`). -/
def classify (P : ParserState) (t : String) : TokClass :=
  if t.data.head? == some '-' then
    if t.data.get? 1 == some '-' then
      let pr := splitAtEq (t.data.drop 2)
      .named true ⟨pr.1⟩ (pr.2.map fun l => (⟨l⟩ : String))
    else if 2 < t.data.length then
      let suffix : List Char := t.data.drop 1
      let inlineCond : Bool :=
        match mapFind P.shortMap ⟨suffix.take 1⟩ with
        | some idx => !isBoolAt P idx
        | none => false
      if inlineCond then .named false ⟨suffix.take 1⟩ (some ⟨t.data.drop 2⟩)
      else if groupedOk P suffix then .cluster suffix
      else .named false ⟨suffix⟩ none
    else .named false ⟨t.data.drop 1⟩ none
  else .positional

/-- The main token pass of `Parser::parse` (lines 1364-1499): classify
each token, buffer positional values, apply a grouped flag cluster, and
send named options through `dispatchOpt`, advancing past the consumed
value token on an `.sconsume` answer. -/
def parseLoop (P : ParserState) : List String → List String → LoopOut
  | [], pos => .ok P pos
  | t :: rest, pos =>
    match classify P t with
    | .positional => parseLoop P rest (pos ++ [t])
    | .cluster suffix =>
      let res := applyFlagCluster P suffix
      if res.1 then parseLoop res.2.1 rest pos
      else .err .INVALID_VALUE { res.2.1 with lastError := res.2.2 }
    | .named isLong name iv =>
      match dispatchOpt P isLong name iv rest with
      | .serr r P' => .err r P'
      | .snext P' => parseLoop P' rest pos
      | .sconsume P' =>
        match rest with
        | _ :: rest' => parseLoop P' rest' pos
        | [] => .err .MISSING_VALUE P'

/-- The positional-binding pass (lines 1501-1520): walk the positional
declarations in order; when the buffered values are exhausted a required
declaration aborts with `MISSING_VALUE` and an optional one keeps its
default; otherwise the next value is parsed into the declaration,
aborting with `INVALID_VALUE` on failure. Returns the updated
declarations, the unconsumed values, and the abort, if any. -/
def bindPositionals : List Arg → List String → List Arg × List String × Option (ParseResult × String)
  | [], vs => ([], vs, none)
  | a :: as, [] =>
    if a.required then
      (a :: as, [], some (.MISSING_VALUE, "Missing required positional argument: " ++ a.name))
    else
      let r := bindPositionals as []
      (a :: r.1, r.2.1, r.2.2)
  | a :: as, v :: vs =>
    let res := argParseStr a v
    if res.1 then
      let r := bindPositionals as vs
      (res.2 :: r.1, r.2.1, r.2.2)
    else
      (res.2 :: as, v :: vs,
        some (.INVALID_VALUE, "Invalid value for positional argument: " ++ a.name ++ " = " ++ v))

/-- The required-option check (lines 1529-1535): the name of the first
declared optional argument that is required but still unset. -/
def findMissingRequired : List Arg → Option String
  | [] => none
  | a :: as => if a.required && !a.isSet then some a.name else findMissingRequired as

/-- `Parser::parse` (lines 1347-1538): clear `lastError_`, scan every
token after the program name for `--help` / `-h` and short-circuit with
`HELP_REQUESTED`, run the main token loop, bind the buffered positional
values, reject leftovers as too many positional arguments, and demand
every required optional argument be set. -/
def parseTokens (P0 : ParserState) (argv : List String) : ParseResult × ParserState :=
  let P : ParserState := { P0 with lastError := "" }
  let toks := argv.drop 1
  if toks.any (fun t => t == "--help" || t == "-h") then (.HELP_REQUESTED, P)
  else
    match parseLoop P toks [] with
    | .err r P' => (r, P')
    | .ok P' posVals =>
      let b := bindPositionals P'.posArgs posVals
      let P2 : ParserState := { P' with posArgs := b.1 }
      match b.2.2 with
      | some rm => (rm.1, { P2 with lastError := rm.2 })
      | none =>
        if ¬b.2.1.isEmpty then
          (.INVALID_VALUE, { P2 with lastError := "Too many positional arguments" })
        else
          match findMissingRequired P2.args with
          | some nm => (.MISSING_VALUE, { P2 with lastError := "Missing required option: --" ++ nm })
          | none => (.SUCCESS, P2)

/-! ### Helper lemmas about the per-kind parse bodies -/

/-- A plain numeric argument record used to state concrete facts. -/
def numArg (k : ArgKind) : Arg :=
  { name := "n", shortName := "n", description := "", required := false,
    kind := k, validator := none, value := Value.vI 0, isSet := false }

theorem intParse_isSet_of_false (lo hi : Int) (a : Arg) (s : String)
    (h : (intParse lo hi a s).1 = false) : (intParse lo hi a s).2.isSet = a.isSet := by
  rcases hval : a.validator with _ | f <;>
    simp only [intParse, hval] at h ⊢ <;>
    split_ifs at h ⊢ <;> simp_all

theorem uintParse_isSet_of_false (hi : Nat) (a : Arg) (s : String)
    (h : (uintParse hi a s).1 = false) : (uintParse hi a s).2.isSet = a.isSet := by
  rcases hval : a.validator with _ | f <;>
    simp only [uintParse, hval] at h ⊢ <;>
    split_ifs at h ⊢ <;> simp_all

theorem floatParse_isSet_of_false (maxAbs : ℚ) (a : Arg) (s : String)
    (h : (floatParse maxAbs a s).1 = false) : (floatParse maxAbs a s).2.isSet = a.isSet := by
  rcases hval : a.validator with _ | f <;>
    simp only [floatParse, hval] at h ⊢ <;>
    split_ifs at h ⊢ <;> simp_all

theorem intParse_isSet_of_true (lo hi : Int) (a : Arg) (s : String)
    (h : (intParse lo hi a s).1 = true) : (intParse lo hi a s).2.isSet = true := by
  rcases hval : a.validator with _ | f <;>
    simp only [intParse, hval] at h ⊢ <;>
    split_ifs at h ⊢ <;> simp_all

theorem uintParse_isSet_of_true (hi : Nat) (a : Arg) (s : String)
    (h : (uintParse hi a s).1 = true) : (uintParse hi a s).2.isSet = true := by
  rcases hval : a.validator with _ | f <;>
    simp only [uintParse, hval] at h ⊢ <;>
    split_ifs at h ⊢ <;> simp_all

theorem floatParse_isSet_of_true (maxAbs : ℚ) (a : Arg) (s : String)
    (h : (floatParse maxAbs a s).1 = true) : (floatParse maxAbs a s).2.isSet = true := by
  rcases hval : a.validator with _ | f <;>
    simp only [floatParse, hval] at h ⊢ <;>
    split_ifs at h ⊢ <;> simp_all

theorem intParse_validator_of_true (lo hi : Int) (a : Arg) (s : String) (f : Value → Bool)
    (hv : a.validator = some f) (h : (intParse lo hi a s).1 = true) :
    f (intParse lo hi a s).2.value = true := by
  simp only [intParse, hv] at h ⊢
  split_ifs at h ⊢ <;> simp_all

theorem uintParse_validator_of_true (hi : Nat) (a : Arg) (s : String) (f : Value → Bool)
    (hv : a.validator = some f) (h : (uintParse hi a s).1 = true) :
    f (uintParse hi a s).2.value = true := by
  simp only [uintParse, hv] at h ⊢
  split_ifs at h ⊢ <;> simp_all

theorem floatParse_validator_of_true (maxAbs : ℚ) (a : Arg) (s : String) (f : Value → Bool)
    (hv : a.validator = some f) (h : (floatParse maxAbs a s).1 = true) :
    f (floatParse maxAbs a s).2.value = true := by
  simp only [floatParse, hv] at h ⊢
  split_ifs at h ⊢ <;> simp_all

theorem intParse_untouched (lo hi : Int) (a : Arg) (s : String)
    (hv : a.validator = none) (h : (intParse lo hi a s).1 = false) :
    (intParse lo hi a s).2 = a := by
  simp only [intParse, hv] at h ⊢
  split_ifs at h ⊢ <;> simp_all

theorem uintParse_untouched (hi : Nat) (a : Arg) (s : String)
    (hv : a.validator = none) (h : (uintParse hi a s).1 = false) :
    (uintParse hi a s).2 = a := by
  simp only [uintParse, hv] at h ⊢
  split_ifs at h ⊢ <;> simp_all

theorem floatParse_untouched (maxAbs : ℚ) (a : Arg) (s : String)
    (hv : a.validator = none) (h : (floatParse maxAbs a s).1 = false) :
    (floatParse maxAbs a s).2 = a := by
  simp only [floatParse, hv] at h ⊢
  split_ifs at h ⊢ <;> simp_all

theorem intParse_rest_ne (lo hi : Int) (a : Arg) (s : String)
    (h : ¬(strtolM s.data).rest.isEmpty) : intParse lo hi a s = (false, a) := by
  simp [intParse, h]

theorem uintParse_rest_ne (hi : Nat) (a : Arg) (s : String)
    (h : ¬(strtoulM s.data).rest.isEmpty) : uintParse hi a s = (false, a) := by
  simp [uintParse, h]

theorem floatParse_rest_ne (maxAbs : ℚ) (a : Arg) (s : String)
    (h : ¬(strtofM maxAbs s.data).rest.isEmpty) : floatParse maxAbs a s = (false, a) := by
  simp [floatParse, h]

/-- The four-argument demo parser used by the concrete examples: three
boolean flags `v`, `d`, `q` and a required string option `input`/`i`. -/
def demoParser : ParserState :=
  ((((mkParser "test_app" "").addArgument .kBool "verbose" "v" "" false (.vB false)).addArgument
      .kBool "debug" "d" "" false (.vB false)).addArgument
      .kBool "quiet" "q" "" false (.vB false)).addArgument
      .kStr "input" "i" "" true (.vS "")

/-! ### Dispatcher lemmas: structure preservation and token classification -/

/-- The `parse` member functions never change the declared kind of an
argument: only `value_` and `isSet_` are written. -/
theorem argParseStr_kind (a : Arg) (s : String) : (argParseStr a s).2.kind = a.kind := by
  cases hk : a.kind <;>
    simp only [argParseStr, intParse, uintParse, floatParse, hk] <;>
    rcases hval : a.validator with _ | f <;> simp only [hval] <;>
    first
    | rfl
    | (split_ifs <;> simp [hk])

theorem isBoolAt_setArg (P : ParserState) (i : Nat) (a' : Arg)
    (h : a'.kind = (getArg P i).kind) (j : Nat) :
    isBoolAt (setArg P i a') j = isBoolAt P j := by
  unfold isBoolAt getArg setArg
  rcases eq_or_ne i j with rfl | hne
  · rcases hlt : P.args.get? i with _ | b
    · rw [List.get?_set_eq, hlt]
      rfl
    · rw [List.get?_set_eq, hlt]
      show (a'.kind == ArgKind.kBool) = (b.kind == ArgKind.kBool)
      unfold getArg at h
      rw [hlt] at h
      simp only [Option.getD_some] at h
      rw [h]
  · rw [List.get?_set_ne _ _ hne]

theorem groupedOk_iff (P : ParserState) (suffix : List Char) :
    groupedOk P suffix = true ↔
      ∀ ch ∈ suffix, ∃ i, mapFind P.shortMap (String.singleton ch) = some i
        ∧ isBoolAt P i = true := by
  unfold groupedOk
  rw [List.all_eq_true]
  constructor
  · intro h ch hch
    have hx := h ch hch
    rcases hf : mapFind P.shortMap (String.singleton ch) with _ | i <;> rw [hf] at hx
    · cases hx
    · exact ⟨i, rfl, hx⟩
  · intro h ch hch
    obtain ⟨i, hf, hb⟩ := h ch hch
    rw [hf]
    exact hb

theorem groupedOk_congr (P P' : ParserState) (suffix : List Char)
    (hs : P'.shortMap = P.shortMap) (hb : ∀ j, isBoolAt P' j = isBoolAt P j) :
    groupedOk P' suffix = groupedOk P suffix := by
  unfold groupedOk
  have hfun : (fun ch =>
      match mapFind P'.shortMap (String.singleton ch) with
      | some idx => isBoolAt P' idx
      | none => false)
    = (fun ch =>
      match mapFind P.shortMap (String.singleton ch) with
      | some idx => isBoolAt P idx
      | none => false) := by
    funext ch
    rw [hs]
    rcases mapFind P.shortMap (String.singleton ch) with _ | i
    · rfl
    · exact hb i
  rw [hfun]

theorem applyFlagCluster_ok (suffix : List Char) : ∀ (P : ParserState),
    groupedOk P suffix = true →
    (applyFlagCluster P suffix).1 = true
    ∧ (applyFlagCluster P suffix).2.1.shortMap = P.shortMap
    ∧ (applyFlagCluster P suffix).2.1.longMap = P.longMap
    ∧ (∀ j, isBoolAt (applyFlagCluster P suffix).2.1 j = isBoolAt P j) := by
  induction suffix with
  | nil => intro P _; exact ⟨rfl, rfl, rfl, fun _ => rfl⟩
  | cons ch cs ih =>
    intro P hg
    obtain ⟨i, hf, hb⟩ := (groupedOk_iff P (ch :: cs)).1 hg ch (by simp)
    have hbool : (getArg P i).kind = .kBool := by
      unfold isBoolAt at hb
      exact beq_iff_eq.1 hb
    set a2 : Arg := { getArg P i with value := Value.vB true, isSet := true } with ha2
    have hres1 : (argParseStr (getArg P i) "true").1 = true := by
      simp [argParseStr, hbool]
    have hres2 : (argParseStr (getArg P i) "true").2 = a2 := by
      simp [argParseStr, hbool, ha2]
    simp only [applyFlagCluster, hf, hres1, hres2, if_true]
    have hkind : a2.kind = (getArg P i).kind := rfl
    have hbj := isBoolAt_setArg P i a2 hkind
    have hg2 : groupedOk (setArg P i a2) cs = true := by
      rw [groupedOk_congr P (setArg P i a2) cs rfl hbj, groupedOk_iff]
      intro x hx
      exact (groupedOk_iff P (ch :: cs)).1 hg x (by simp [hx])
    obtain ⟨h1, h2, h3, h4⟩ := ih _ hg2
    exact ⟨h1, h2, h3, fun j => by rw [h4 j, hbj j]⟩

theorem classify_inline (P : ParserState) (c : Char) (v : String) (i : Nat)
    (hc : c ≠ '-') (hv : v.data ≠ [])
    (hfind : mapFind P.shortMap (String.singleton c) = some i)
    (hk : (getArg P i).kind ≠ .kBool) :
    classify P ⟨'-' :: c :: v.data⟩ = .named false (String.singleton c) (some v) := by
  obtain ⟨d, ds, hd⟩ : ∃ d ds, v.data = d :: ds := by
    cases hvd : v.data with
    | nil => exact absurd hvd hv
    | cons d ds => exact ⟨d, ds, rfl⟩
  have hb : isBoolAt P i = false := by simp [isBoolAt, hk]
  simp only [classify, hd]
  have h1 : (('-' :: c :: d :: ds : List Char).head? == some '-') = true := by simp
  have h2 : (('-' :: c :: d :: ds : List Char).get? 1 == some '-') = false := by simp [hc]
  have h3 : 2 < ('-' :: c :: d :: ds : List Char).length := by simp
  have hsing : (⟨[c]⟩ : String) = String.singleton c := rfl
  have hfind2 : mapFind P.shortMap ⟨[c]⟩ = some i := hfind
  have hveta : (⟨d :: ds⟩ : String) = v := by rw [← hd]
  simp only [h1, h2, h3, if_true, if_false]
  simp [hfind2, hb, hsing, hveta]
  intro hcontra
  rw [hfind] at hcontra
  simp [hb] at hcontra

theorem classify_single (P : ParserState) (c : Char) (hc : c ≠ '-') :
    classify P ⟨['-', c]⟩ = .named false (String.singleton c) none := by
  simp only [classify]
  have h1 : ((['-', c] : List Char).head? == some '-') = true := by simp
  have h2 : ((['-', c] : List Char).get? 1 == some '-') = false := by simp [hc]
  have h3 : ¬(2 < (['-', c] : List Char).length) := by simp
  simp only [h1, h2, h3, if_true, if_false]
  rfl

theorem classify_cluster (P : ParserState) (c : Char) (cs : List Char)
    (hc : c ≠ '-') (hcs : cs ≠ [])
    (hg : groupedOk P (c :: cs) = true) :
    classify P ⟨'-' :: c :: cs⟩ = .cluster (c :: cs) := by
  obtain ⟨d, ds, hd⟩ : ∃ d ds, cs = d :: ds := by
    cases hvd : cs with
    | nil => exact absurd hvd hcs
    | cons d ds => exact ⟨d, ds, rfl⟩
  obtain ⟨i, hf, hb⟩ := (groupedOk_iff P (c :: cs)).1 hg c (by simp)
  have hfind2 : mapFind P.shortMap ⟨[c]⟩ = some i := hf
  subst hd
  simp only [classify]
  have h1 : (('-' :: c :: d :: ds : List Char).head? == some '-') = true := by simp
  have h2 : (('-' :: c :: d :: ds : List Char).get? 1 == some '-') = false := by simp [hc]
  have h3 : 2 < ('-' :: c :: d :: ds : List Char).length := by simp
  simp only [h1, h2, h3, if_true, if_false]
  simp [hfind2, hb, hg]

theorem classify_fallback (P : ParserState) (c : Char) (cs : List Char)
    (hc : c ≠ '-') (hcs : cs ≠ [])
    (hinline : ∀ i, mapFind P.shortMap (String.singleton c) = some i → isBoolAt P i = true)
    (hg : groupedOk P (c :: cs) = false) :
    classify P ⟨'-' :: c :: cs⟩ = .named false ⟨c :: cs⟩ none := by
  obtain ⟨d, ds, hd⟩ : ∃ d ds, cs = d :: ds := by
    cases hvd : cs with
    | nil => exact absurd hvd hcs
    | cons d ds => exact ⟨d, ds, rfl⟩
  subst hd
  simp only [classify]
  have h1 : (('-' :: c :: d :: ds : List Char).head? == some '-') = true := by simp
  have h2 : (('-' :: c :: d :: ds : List Char).get? 1 == some '-') = false := by simp [hc]
  have h3 : 2 < ('-' :: c :: d :: ds : List Char).length := by simp
  have hic : (match mapFind P.shortMap (⟨[c]⟩ : String) with
      | some idx => !isBoolAt P idx
      | none => false) = false := by
    rcases hf : mapFind P.shortMap (⟨[c]⟩ : String) with _ | i
    · rfl
    · simp [hinline i hf]
  simp only [h1, h2, h3, if_true, if_false]
  simp [hic, hg]

def demoParserC : ParserState :=
  demoParser.addArgument .kInt32 "count" "c" "" false (.vI 0)

theorem c1_short_dash_ambiguity :
    (∀ (P : ParserState) (c : Char) (v : String) (rest pos : List String) (i : Nat),
        c ≠ '-' → v.data ≠ [] →
        mapFind P.shortMap (String.singleton c) = some i →
        (getArg P i).kind ≠ .kBool →
        parseLoop P (⟨'-' :: c :: v.data⟩ :: rest) pos
          = parseLoop P (⟨['-', c]⟩ :: v :: rest) pos)
  ∧ (∀ (P : ParserState) (c : Char) (cs : List Char) (rest pos : List String),
        c ≠ '-' → cs ≠ [] →
        (∀ ch ∈ c :: cs, ∃ i, mapFind P.shortMap (String.singleton ch) = some i
          ∧ isBoolAt P i = true) →
        parseLoop P (⟨'-' :: c :: cs⟩ :: rest) pos
          = parseLoop (applyFlagCluster P (c :: cs)).2.1 rest pos)
  ∧ (∀ (P : ParserState) (c : Char) (cs : List Char) (rest pos : List String),
        c ≠ '-' → cs ≠ [] →
        (∀ i, mapFind P.shortMap (String.singleton c) = some i → isBoolAt P i = true) →
        groupedOk P (c :: cs) = false →
        (mapFind P.shortMap ⟨c :: cs⟩ = none →
            parseLoop P (⟨'-' :: c :: cs⟩ :: rest) pos
              = .err .UNKNOWN_OPTION
                  { P with lastError := "Unknown option: -" ++ (⟨c :: cs⟩ : String) })
        ∧ (∀ j, mapFind P.shortMap ⟨c :: cs⟩ = some j → isBoolAt P j = false →
            (rest = [] →
              parseLoop P (⟨'-' :: c :: cs⟩ :: rest) pos
                = .err .MISSING_VALUE
                    { P with lastError := "Missing value for option: -" ++ (⟨c :: cs⟩ : String) })
            ∧ (∀ v rest', rest = v :: rest' → (argParseStr (getArg P j) v).1 = true →
                parseLoop P (⟨'-' :: c :: cs⟩ :: rest) pos
                  = parseLoop (setArg P j (argParseStr (getArg P j) v).2) rest' pos)))
  ∧ ((parseTokens demoParser ["prog", "-vdq", "--input", "test.txt"]).1 = .SUCCESS
      ∧ (getArg (parseTokens demoParser ["prog", "-vdq", "--input", "test.txt"]).2 0).value = .vB true
      ∧ (getArg (parseTokens demoParser ["prog", "-vdq", "--input", "test.txt"]).2 1).value = .vB true
      ∧ (getArg (parseTokens demoParser ["prog", "-vdq", "--input", "test.txt"]).2 2).value = .vB true
      ∧ (getArg (parseTokens demoParser ["prog", "-vdq", "--input", "test.txt"]).2 3).value = .vS "test.txt"
      ∧ (getArg (parseTokens demoParser ["prog", "-vdq", "--input", "test.txt"]).2 3).isSet = true) := by
  refine ⟨?_, ?_, ?_, ?_⟩
  · intro P c v rest pos i hc hv hfind hk
    have hb : isBoolAt P i = false := by simp [isBoolAt, hk]
    rw [parseLoop, parseLoop, classify_inline P c v i hc hv hfind hk, classify_single P c hc]
    simp only [dispatchOpt, hfind, hb]
    cases hres : (argParseStr (getArg P i) v).1 <;> simp [hres, hb]
  · intro P c cs rest pos hc hcs hall
    have hg : groupedOk P (c :: cs) = true := (groupedOk_iff _ _).2 hall
    rw [parseLoop, classify_cluster P c cs hc hcs hg]
    have h1 := (applyFlagCluster_ok (c :: cs) P hg).1
    simp only [h1, if_true]
  · intro P c cs rest pos hc hcs hinline hg
    constructor
    · intro hfound
      rw [parseLoop, classify_fallback P c cs hc hcs hinline hg]
      simp [dispatchOpt, hfound]
    · intro j hfj hbj
      constructor
      · rintro rfl
        rw [parseLoop, classify_fallback P c cs hc hcs hinline hg]
        simp [dispatchOpt, hfj, hbj]
      · rintro v rest' rfl hok
        rw [parseLoop, classify_fallback P c cs hc hcs hinline hg]
        simp [dispatchOpt, hfj, hbj, hok]
  · decide

theorem c1_short_dash_ambiguity_witness :
    parseLoop demoParserC [⟨'-' :: 'c' :: ("123" : String).data⟩] []
      = parseLoop demoParserC [⟨['-', 'c']⟩, "123"] [] :=
  c1_short_dash_ambiguity.1 demoParserC 'c' "123" [] [] 4
    (by decide) (by decide) (by decide) (by decide)


theorem splitAtEq_of_not_mem (l : List Char) (h : '=' ∉ l) : splitAtEq l = (l, none) := by
  induction l with
  | nil => rfl
  | cons c cs ih =>
    unfold splitAtEq
    rw [if_neg (show ¬(c = '=') from fun hc => h (by rw [hc]; exact List.mem_cons_self '=' cs))]
    rw [ih (fun hm => h (List.mem_cons_of_mem c hm))]

theorem splitAtEq_append (l r : List Char) (h : '=' ∉ l) :
    splitAtEq (l ++ '=' :: r) = (l, some r) := by
  induction l with
  | nil => simp [splitAtEq]
  | cons c cs ih =>
    simp only [List.cons_append]
    unfold splitAtEq
    rw [if_neg (show ¬(c = '=') from fun hc => h (by rw [hc]; exact List.mem_cons_self '=' cs))]
    rw [ih (fun hm => h (List.mem_cons_of_mem c hm))]

theorem classify_long (P : ParserState) (t : String) (cs : List Char)
    (hd : t.data = '-' :: '-' :: cs) :
    classify P t
      = .named true ⟨(splitAtEq cs).1⟩ ((splitAtEq cs).2.map fun l => (⟨l⟩ : String)) := by
  simp only [classify, hd]
  simp

theorem classify_dash (P : ParserState) : classify P "-" = .named false "" none := rfl

end ArgsParser

namespace ArgsParser
example (a b : String) (h : a.data = b.data) : a = b := String.ext h


/-- The parser state carried by a main-loop step answer. -/
def stepState : StepOut → ParserState
  | .serr _ P => P
  | .snext P => P
  | .sconsume P => P

/-- The parser state carried by a main-loop outcome. -/
def loopState : LoopOut → ParserState
  | .err _ P => P
  | .ok P _ => P

/-- Does dispatching the token `t` (under the classification rules and
the parser's name maps) target the argument stored at index `i`?  This
is the formal reading of "the token list mentions the argument". -/
def tokenTargets (P : ParserState) (t : String) (i : Nat) : Bool :=
  match classify P t with
  | .positional => false
  | .cluster suffix => suffix.any fun ch => mapFind P.shortMap (String.singleton ch) == some i
  | .named isLong name _ =>
    (if isLong then mapFind P.longMap name else mapFind P.shortMap name) == some i

theorem classify_congr (P Q : ParserState) (t : String)
    (hs : Q.shortMap = P.shortMap) (hb : ∀ j, isBoolAt Q j = isBoolAt P j) :
    classify Q t = classify P t := by
  simp only [classify, hs]
  have hic : (match mapFind P.shortMap ⟨(t.data.drop 1).take 1⟩ with
      | some idx => !isBoolAt Q idx
      | none => false)
    = (match mapFind P.shortMap ⟨(t.data.drop 1).take 1⟩ with
      | some idx => !isBoolAt P idx
      | none => false) := by
    rcases hf : mapFind P.shortMap ⟨(t.data.drop 1).take 1⟩ with _ | idx <;> simp [hb]
  rw [hic, groupedOk_congr P Q (t.data.drop 1) hs hb]

theorem tokenTargets_congr (P Q : ParserState) (t : String) (i : Nat)
    (hl : Q.longMap = P.longMap) (hs : Q.shortMap = P.shortMap)
    (hb : ∀ j, isBoolAt Q j = isBoolAt P j) :
    tokenTargets Q t i = tokenTargets P t i := by
  unfold tokenTargets
  rw [classify_congr P Q t hs hb]
  rcases classify P t with _ | suffix | ⟨isLong, name, iv⟩ <;> simp [hl, hs]

/-- The frame facts one parse step preserves about the argument at
index `i`: its slot is untouched, the maps are untouched, and every
argument keeps its kind (hence its flag-ness). -/
def argsFrame (i : Nat) (Q R : ParserState) : Prop :=
  R.args.get? i = Q.args.get? i ∧ R.longMap = Q.longMap ∧ R.shortMap = Q.shortMap
  ∧ ∀ j, isBoolAt R j = isBoolAt Q j

theorem argsFrame_refl (i : Nat) (Q : ParserState) : argsFrame i Q Q :=
  ⟨rfl, rfl, rfl, fun _ => rfl⟩

theorem argsFrame_trans (i : Nat) (Q R S : ParserState)
    (h1 : argsFrame i Q R) (h2 : argsFrame i R S) : argsFrame i Q S :=
  ⟨h2.1.trans h1.1, h2.2.1.trans h1.2.1, h2.2.2.1.trans h1.2.2.1,
   fun j => (h2.2.2.2 j).trans (h1.2.2.2 j)⟩

theorem setArg_frame (Q : ParserState) (idx i : Nat) (a' : Arg)
    (hne : idx ≠ i) (hkind : a'.kind = (getArg Q idx).kind) :
    argsFrame i Q (setArg Q idx a') :=
  ⟨List.get?_set_ne _ _ hne, rfl, rfl, isBoolAt_setArg Q idx a' hkind⟩

theorem dispatchOpt_frame (Q : ParserState) (isLong : Bool) (name : String)
    (iv : Option String) (rest : List String) (i : Nat)
    (hne : (if isLong then mapFind Q.longMap name else mapFind Q.shortMap name) ≠ some i) :
    argsFrame i Q (stepState (dispatchOpt Q isLong name iv rest)) := by
  rcases hf : (if isLong then mapFind Q.longMap name else mapFind Q.shortMap name) with _ | idx
  · simp only [dispatchOpt, hf]
    exact argsFrame_refl i Q
  · have hidx : idx ≠ i := fun hcon => hne (hcon ▸ hf)
    simp only [dispatchOpt, hf]
    rcases hbool : isBoolAt Q idx with _ | _
    · simp only [hbool, Bool.false_eq_true, if_false]
      rcases iv with _ | v
      · rcases rest with _ | ⟨v, rest'⟩
        · exact argsFrame_refl i Q
        · rcases hr : (argParseStr (getArg Q idx) v).1 with _ | _ <;>
            simp only [hr, Bool.false_eq_true, if_false, if_true] <;>
            exact setArg_frame Q idx i _ hidx (argParseStr_kind _ _)
      · rcases hr : (argParseStr (getArg Q idx) v).1 with _ | _ <;>
          simp only [hr, Bool.false_eq_true, if_false, if_true] <;>
          exact setArg_frame Q idx i _ hidx (argParseStr_kind _ _)
    · simp only [hbool, if_true]
      rcases hr : (argParseStr (getArg Q idx) "true").1 with _ | _ <;>
        simp only [hr, Bool.false_eq_true, if_false, if_true] <;>
        exact setArg_frame Q idx i _ hidx (argParseStr_kind _ _)

theorem applyFlagCluster_frame (i : Nat) (suffix : List Char) : ∀ (Q : ParserState),
    (∀ ch ∈ suffix, mapFind Q.shortMap (String.singleton ch) ≠ some i) →
    argsFrame i Q (applyFlagCluster Q suffix).2.1 := by
  induction suffix with
  | nil => intro Q _; exact argsFrame_refl i Q
  | cons ch cs ih =>
    intro Q hne
    rcases hf : mapFind Q.shortMap (String.singleton ch) with _ | idx
    · simp only [applyFlagCluster, hf]
      exact ih Q (fun x hx => hne x (by simp [hx]))
    · have hidx : idx ≠ i := fun hcon => (hne ch (by simp)) (hcon ▸ hf)
      have hsf := setArg_frame Q idx i (argParseStr (getArg Q idx) "true").2 hidx
        (argParseStr_kind _ _)
      rcases hr : (argParseStr (getArg Q idx) "true").1 with _ | _
      · simp only [applyFlagCluster, hf, hr, Bool.false_eq_true, if_false]
        exact hsf
      · simp only [applyFlagCluster, hf, hr, if_true]
        refine argsFrame_trans i Q _ _ hsf (ih _ ?_)
        intro x hx hcon
        have hsm : (setArg Q idx (argParseStr (getArg Q idx) "true").2).shortMap = Q.shortMap :=
          rfl
        rw [hsm] at hcon
        exact hne x (by simp [hx]) hcon

theorem parseLoop_frame (i : Nat) (P : ParserState) :
    ∀ (n : Nat) (toks : List String), toks.length ≤ n →
      ∀ (Q : ParserState) (pos : List String), argsFrame i P Q →
      (∀ t ∈ toks, tokenTargets P t i = false) →
      argsFrame i P (loopState (parseLoop Q toks pos)) := by
  intro n
  induction n with
  | zero =>
    intro toks hlen Q pos hQ _
    have hnil : toks = [] := List.eq_nil_of_length_eq_zero (Nat.le_zero.1 hlen)
    subst hnil
    simpa [parseLoop, loopState] using hQ
  | succ n ih =>
    intro toks hlen Q pos hQ htg
    rcases toks with _ | ⟨t, rest⟩
    · simpa [parseLoop, loopState] using hQ
    · have hcl : classify Q t = classify P t := classify_congr P Q t hQ.2.2.1 hQ.2.2.2
      have htg0 : tokenTargets P t i = false := htg t (by simp)
      have hlen' : rest.length ≤ n := by
        simp only [List.length_cons] at hlen
        omega
      rw [parseLoop, hcl]
      rcases hclP : classify P t with _ | suffix | ⟨isLong, name, iv⟩ <;> simp only [hclP]
      · exact ih rest hlen' Q (pos ++ [t]) hQ (fun x hx => htg x (by simp [hx]))
      · have hanyP : (suffix.any fun ch =>
            mapFind P.shortMap (String.singleton ch) == some i) = false := by
          have hx := htg0
          unfold tokenTargets at hx
          rw [hclP] at hx
          exact hx
        have hchQ : ∀ ch ∈ suffix, mapFind Q.shortMap (String.singleton ch) ≠ some i := by
          intro ch hch hcon
          rw [hQ.2.2.1] at hcon
          have hany : (suffix.any fun ch =>
              mapFind P.shortMap (String.singleton ch) == some i) = true :=
            List.any_eq_true.2 ⟨ch, hch, by simp [hcon]⟩
          rw [hanyP] at hany
          cases hany
        have hcf := applyFlagCluster_frame i suffix Q hchQ
        rcases hr : (applyFlagCluster Q suffix).1 with _ | _
        · simp only [hr, Bool.false_eq_true, if_false, loopState]
          exact argsFrame_trans i P Q _ hQ hcf
        · simp only [hr, if_true]
          exact ih rest hlen' _ pos (argsFrame_trans i P Q _ hQ hcf)
            (fun x hx => htg x (by simp [hx]))
      · have hneQ : (if isLong then mapFind Q.longMap name else mapFind Q.shortMap name)
            ≠ some i := by
          rw [hQ.2.1, hQ.2.2.1]
          have hx := htg0
          unfold tokenTargets at hx
          rw [hclP] at hx
          simpa using hx
        have hdf := dispatchOpt_frame Q isLong name iv rest i hneQ
        rcases hd : dispatchOpt Q isLong name iv rest with _ | P2 | P2
        case serr r P2 =>
          rw [hd] at hdf
          simp only [hd, loopState]
          exact argsFrame_trans i P Q P2 hQ hdf
        case snext =>
          rw [hd] at hdf
          simp only [hd]
          exact ih rest hlen' P2 pos (argsFrame_trans i P Q P2 hQ hdf)
            (fun x hx => htg x (by simp [hx]))
        case sconsume =>
          rw [hd] at hdf
          simp only [hd]
          rcases rest with _ | ⟨v, rest'⟩
          · simp only [loopState]
            exact argsFrame_trans i P Q P2 hQ hdf
          · have hlen2 : rest'.length ≤ n := by
              simp only [List.length_cons] at hlen
              omega
            exact ih rest' hlen2 P2 pos (argsFrame_trans i P Q P2 hQ hdf)
              (fun x hx => htg x (by simp [hx]))


/-! ### The claims -/

set_option maxRecDepth 8000 in
/-- C4: for every signed or unsigned integer kind present (16/32/64-bit
signed, 32/64-bit unsigned), parsing the exact decimal string of the
kind's minimum and maximum succeeds and yields exactly that value (with
`isSet`), while one unit beyond either bound is rejected. -/
theorem c4_integer_bounds_roundtrip :
    ((argParseStr (numArg .kInt16) "-32768").1 = true
      ∧ (argParseStr (numArg .kInt16) "-32768").2.value = .vI (-32768)
      ∧ (argParseStr (numArg .kInt16) "-32768").2.isSet = true
      ∧ (argParseStr (numArg .kInt16) "32767").1 = true
      ∧ (argParseStr (numArg .kInt16) "32767").2.value = .vI 32767
      ∧ (argParseStr (numArg .kInt16) "32767").2.isSet = true
      ∧ (argParseStr (numArg .kInt16) "32768").1 = false
      ∧ (argParseStr (numArg .kInt16) "-32769").1 = false)
  ∧ ((argParseStr (numArg .kInt32) "-2147483648").1 = true
      ∧ (argParseStr (numArg .kInt32) "-2147483648").2.value = .vI (-2147483648)
      ∧ (argParseStr (numArg .kInt32) "2147483647").1 = true
      ∧ (argParseStr (numArg .kInt32) "2147483647").2.value = .vI 2147483647
      ∧ (argParseStr (numArg .kInt32) "2147483648").1 = false
      ∧ (argParseStr (numArg .kInt32) "-2147483649").1 = false)
  ∧ ((argParseStr (numArg .kInt64) "-9223372036854775808").1 = true
      ∧ (argParseStr (numArg .kInt64) "-9223372036854775808").2.value = .vI (-9223372036854775808)
      ∧ (argParseStr (numArg .kInt64) "9223372036854775807").1 = true
      ∧ (argParseStr (numArg .kInt64) "9223372036854775807").2.value = .vI 9223372036854775807
      ∧ (argParseStr (numArg .kInt64) "9223372036854775808").1 = false
      ∧ (argParseStr (numArg .kInt64) "-9223372036854775809").1 = false)
  ∧ ((argParseStr (numArg .kUInt32) "0").1 = true
      ∧ (argParseStr (numArg .kUInt32) "0").2.value = .vI 0
      ∧ (argParseStr (numArg .kUInt32) "4294967295").1 = true
      ∧ (argParseStr (numArg .kUInt32) "4294967295").2.value = .vI 4294967295
      ∧ (argParseStr (numArg .kUInt32) "4294967296").1 = false
      ∧ (argParseStr (numArg .kUInt32) "-1").1 = false)
  ∧ ((argParseStr (numArg .kUInt64) "0").1 = true
      ∧ (argParseStr (numArg .kUInt64) "0").2.value = .vI 0
      ∧ (argParseStr (numArg .kUInt64) "18446744073709551615").1 = true
      ∧ (argParseStr (numArg .kUInt64) "18446744073709551615").2.value = .vI 18446744073709551615
      ∧ (argParseStr (numArg .kUInt64) "18446744073709551616").1 = false
      ∧ (argParseStr (numArg .kUInt64) "-1").1 = false) := by
  decide

/-- C5: for both unsigned kinds, any input whose first character is `-`
is rejected, whatever its magnitude - the explicit leading-minus check
of `Argument<uint32_t>::parse` / `Argument<uint64_t>::parse` fires after
the range checks, and every earlier exit also returns `false`. -/
theorem c5_unsigned_leading_minus (a : Arg) (s : String)
    (hk : a.kind = .kUInt32 ∨ a.kind = .kUInt64)
    (hm : s.data.head? = some '-') : (argParseStr a s).1 = false := by
  have core : ∀ hi : Nat, (uintParse hi a s).1 = false := by
    intro hi
    rcases hval : a.validator with _ | f <;>
      simp only [uintParse, hval] <;>
      split_ifs with h1 h2 h3 <;> simp_all
  rcases hk with hk | hk <;> simp [argParseStr, hk, core]

/-- C5 witness: the concrete fresh `uint32` argument rejects `"-1"`. -/
theorem c5_unsigned_leading_minus_witness :
    (argParseStr (numArg .kUInt32) "-1").1 = false :=
  c5_unsigned_leading_minus (numArg .kUInt32) "-1" (Or.inl rfl) rfl

/-- C6: every numeric kind rejects an input the conversion does not
consume entirely - whenever the modelled end pointer is not at the NUL
the parse returns `false` and the argument is untouched - and in
particular `"42xyz"` fails for the integer kinds and `"3.14abc"` and
`"not_a_number"` fail for the floating kinds. -/
theorem c6_trailing_garbage_rejected :
    (∀ (a : Arg) (s : String),
        (a.kind = .kInt16 ∨ a.kind = .kInt32 ∨ a.kind = .kInt64) →
        ¬(strtolM s.data).rest.isEmpty → argParseStr a s = (false, a))
  ∧ (∀ (a : Arg) (s : String),
        (a.kind = .kUInt32 ∨ a.kind = .kUInt64) →
        ¬(strtoulM s.data).rest.isEmpty → argParseStr a s = (false, a))
  ∧ (∀ (a : Arg) (s : String),
        (a.kind = .kFloat → ¬(strtofM fltMax s.data).rest.isEmpty → argParseStr a s = (false, a))
        ∧ (a.kind = .kDouble → ¬(strtofM dblMax s.data).rest.isEmpty → argParseStr a s = (false, a)))
  ∧ ((argParseStr (numArg .kInt16) "42xyz").1 = false
      ∧ (argParseStr (numArg .kInt32) "42xyz").1 = false
      ∧ (argParseStr (numArg .kInt64) "42xyz").1 = false
      ∧ (argParseStr (numArg .kUInt32) "42xyz").1 = false
      ∧ (argParseStr (numArg .kUInt64) "42xyz").1 = false
      ∧ (argParseStr (numArg .kFloat) "3.14abc").1 = false
      ∧ (argParseStr (numArg .kDouble) "3.14abc").1 = false
      ∧ (argParseStr (numArg .kFloat) "not_a_number").1 = false
      ∧ (argParseStr (numArg .kDouble) "not_a_number").1 = false) := by
  refine ⟨?_, ?_, ?_, ?_⟩
  · rintro a s (hk | hk | hk) h <;> simp [argParseStr, hk, intParse_rest_ne _ _ _ _ h]
  · rintro a s (hk | hk) h <;> simp [argParseStr, hk, uintParse_rest_ne _ _ _ h]
  · intro a s
    exact ⟨fun hk h => by simp [argParseStr, hk, floatParse_rest_ne _ _ _ h],
           fun hk h => by simp [argParseStr, hk, floatParse_rest_ne _ _ _ h]⟩
  · decide

/-- C6 witness: the first general conjunct applied to the `int16` kind
at `"42xyz"`, whose conversion leaves `"xyz"` unconsumed. -/
theorem c6_trailing_garbage_rejected_witness :
    argParseStr (numArg .kInt16) "42xyz" = (false, numArg .kInt16) :=
  c6_trailing_garbage_rejected.1 (numArg .kInt16) "42xyz" (Or.inl rfl) (by decide)

/-- C10: every integer and floating kind with no validator accepts the
empty string: the conversion consumes no digits, leaves the end pointer
at the terminating NUL of the empty C string, returns zero, and the
parse stores zero and sets `isSet`. -/
theorem c10_empty_string_accepted (a : Arg) (hv : a.validator = none) :
    ((a.kind = .kInt16 ∨ a.kind = .kInt32 ∨ a.kind = .kInt64) →
      argParseStr a "" = (true, { a with value := .vI 0, isSet := true }))
  ∧ ((a.kind = .kUInt32 ∨ a.kind = .kUInt64) →
      argParseStr a "" = (true, { a with value := .vI 0, isSet := true }))
  ∧ ((a.kind = .kFloat ∨ a.kind = .kDouble) →
      argParseStr a "" = (true, { a with value := .vQ 0, isSet := true })) := by
  have hdata : ("" : String).data = [] := rfl
  refine ⟨?_, ?_, ?_⟩
  · rintro (hk | hk | hk) <;>
      simp [argParseStr, hk, intParse, hv, hdata, strtolM, skipWs, takeSign, takeDigits]
  · rintro (hk | hk) <;>
      simp [argParseStr, hk, uintParse, hv, hdata, strtoulM, skipWs, takeSign, takeDigits]
  · rintro (hk | hk) <;>
      simp [argParseStr, hk, floatParse, hv, hdata, strtofM, skipWs, takeSign, takeDigits]

/-- C10 witness: the fresh `int16` argument parses `""` to zero. -/
theorem c10_empty_string_accepted_witness :
    argParseStr (numArg .kInt16) "" = (true, { numArg .kInt16 with value := .vI 0, isSet := true }) :=
  (c10_empty_string_accepted (numArg .kInt16) rfl).1 (Or.inl rfl)

/-- An `int32` argument with default 7 and a validator accepting only
values below 10, as a caller would build with `addArgument` plus
`setValidator`. -/
def valArg : Arg :=
  { name := "count", shortName := "c", description := "", required := false,
    kind := .kInt32,
    validator := some fun v => match v with | .vI n => decide (n < 10) | _ => false,
    value := .vI 7, isSet := false }

/-- C2 counterexample: on an `int32` argument with stored default 7 and
a validator rejecting 42, `parse("42")` returns `false` - yet the stored
value has been overwritten with 42 before the validator ran, so a failed
parse does NOT leave the prior value untouched as the claim states. -/
theorem c2_value_mutated_on_validator_reject :
    (argParseStr valArg "42").1 = false
    ∧ valArg.value = .vI 7
    ∧ (argParseStr valArg "42").2.value = .vI 42
    ∧ ¬((argParseStr valArg "42").2.value = valArg.value) := by
  decide

/-- C2 amended: for every kind, `isSet` becomes true exactly on overall
parse success, and success implies the validator (when present, on the
non-flag kinds, the only ones that can carry one) accepted the stored
value; a failed parse always leaves `isSet` untouched, and when no
validator is installed it leaves the whole argument untouched - but a
validator rejection on the numeric kinds leaves the freshly converted
value stored (only the string kind checks its validator before
assigning). -/
theorem c2_parse_validate_contract :
    (∀ (a : Arg) (s : String), (argParseStr a s).1 = false →
      (argParseStr a s).2.isSet = a.isSet)
  ∧ (∀ (a : Arg) (s : String), (argParseStr a s).1 = true →
      (argParseStr a s).2.isSet = true)
  ∧ (∀ (a : Arg) (s : String) (f : Value → Bool), a.kind ≠ .kBool →
      a.validator = some f → (argParseStr a s).1 = true →
      f (argParseStr a s).2.value = true)
  ∧ (∀ (a : Arg) (s : String), a.validator = none → (argParseStr a s).1 = false →
      (argParseStr a s).2 = a) := by
  refine ⟨?_, ?_, ?_, ?_⟩
  · intro a s h
    cases hk : a.kind <;> simp only [argParseStr, hk] at h ⊢
    case kBool => simp at h
    case kStr =>
      rcases hval : a.validator with _ | f
      · simp [hval] at h
      · simp only [hval] at h ⊢
        split_ifs at h ⊢ <;> simp_all
    case kInt16 => exact intParse_isSet_of_false _ _ _ _ h
    case kInt32 => exact intParse_isSet_of_false _ _ _ _ h
    case kInt64 => exact intParse_isSet_of_false _ _ _ _ h
    case kUInt32 => exact uintParse_isSet_of_false _ _ _ h
    case kUInt64 => exact uintParse_isSet_of_false _ _ _ h
    case kFloat => exact floatParse_isSet_of_false _ _ _ h
    case kDouble => exact floatParse_isSet_of_false _ _ _ h
  · intro a s h
    cases hk : a.kind <;> simp only [argParseStr, hk] at h ⊢
    case kStr =>
      rcases hval : a.validator with _ | f
      · simp [hval]
      · simp only [hval] at h ⊢
        split_ifs at h ⊢ <;> simp_all
    case kInt16 => exact intParse_isSet_of_true _ _ _ _ h
    case kInt32 => exact intParse_isSet_of_true _ _ _ _ h
    case kInt64 => exact intParse_isSet_of_true _ _ _ _ h
    case kUInt32 => exact uintParse_isSet_of_true _ _ _ h
    case kUInt64 => exact uintParse_isSet_of_true _ _ _ h
    case kFloat => exact floatParse_isSet_of_true _ _ _ h
    case kDouble => exact floatParse_isSet_of_true _ _ _ h
  · intro a s f hb hval h
    cases hk : a.kind <;> simp only [argParseStr, hk] at h ⊢
    case kBool => exact absurd hk hb
    case kStr =>
      simp only [hval] at h ⊢
      split_ifs at h ⊢ <;> simp_all
    case kInt16 => exact intParse_validator_of_true _ _ _ _ f hval h
    case kInt32 => exact intParse_validator_of_true _ _ _ _ f hval h
    case kInt64 => exact intParse_validator_of_true _ _ _ _ f hval h
    case kUInt32 => exact uintParse_validator_of_true _ _ _ f hval h
    case kUInt64 => exact uintParse_validator_of_true _ _ _ f hval h
    case kFloat => exact floatParse_validator_of_true _ _ _ f hval h
    case kDouble => exact floatParse_validator_of_true _ _ _ f hval h
  · intro a s hv h
    cases hk : a.kind <;> simp only [argParseStr, hk] at h ⊢
    case kBool => simp at h
    case kStr => simp only [hv] at h; simp at h
    case kInt16 => exact intParse_untouched _ _ _ _ hv h
    case kInt32 => exact intParse_untouched _ _ _ _ hv h
    case kInt64 => exact intParse_untouched _ _ _ _ hv h
    case kUInt32 => exact uintParse_untouched _ _ _ hv h
    case kUInt64 => exact uintParse_untouched _ _ _ hv h
    case kFloat => exact floatParse_untouched _ _ _ hv h
    case kDouble => exact floatParse_untouched _ _ _ hv h

/-- C2 witness: the contract at concrete inputs - `valArg` rejecting
`"42"` keeps `isSet` false, and the validator-free fresh `int32`
argument rejecting `"abc"` is entirely untouched. -/
theorem c2_parse_validate_contract_witness :
    (argParseStr valArg "42").2.isSet = valArg.isSet
    ∧ (argParseStr (numArg .kInt32) "abc").2 = numArg .kInt32 :=
  ⟨c2_parse_validate_contract.1 valArg "42" (by decide),
   c2_parse_validate_contract.2.2.2 (numArg .kInt32) "abc" rfl (by decide)⟩

/-- C3: if any token after the program name is exactly `--help` or `-h`,
`parse` returns `HELP_REQUESTED` and the state is untouched except for
the initial clearing of `lastError_` - no argument's value or `isSet`
is mutated, whatever the other tokens are. -/
theorem c3_help_short_circuit (P : ParserState) (argv : List String)
    (h : ∃ t ∈ argv.drop 1, t = "--help" ∨ t = "-h") :
    parseTokens P argv = (.HELP_REQUESTED, { P with lastError := "" }) := by
  obtain ⟨t, ht, heq⟩ := h
  have hany : (argv.drop 1).any (fun t => t == "--help" || t == "-h") = true := by
    rw [List.any_eq_true]
    exact ⟨t, ht, by rcases heq with h | h <;> simp [h]⟩
  simp only [parseTokens]
  rw [if_pos hany]

/-- C3 witness: `--help` amid otherwise-invalid tokens on the demo
parser returns `HELP_REQUESTED` with the state untouched. -/
theorem c3_help_short_circuit_witness :
    parseTokens demoParser ["prog", "--bogus", "--help", "xyz"]
      = (.HELP_REQUESTED, { demoParser with lastError := "" }) :=
  c3_help_short_circuit demoParser ["prog", "--bogus", "--help", "xyz"]
    ⟨"--help", by simp, Or.inl rfl⟩


/-- A parser with a single optional `int32` option `count` / `c`. -/
def c7Parser : ParserState :=
  (mkParser "test_app" "").addArgument .kInt32 "count" "c" "" false (.vI 0)

/-- C7 counterexample: for the declared non-flag option `count` and the
value string `"abc"` (which contains no `=`), both the `--count=abc` run
and the `--count abc` run end with `isSet` still false - so the claim's
"isSet true for it in both runs", asserted for every value string, is
false (the two runs are equivalent, but both fail). -/
theorem c7_invalid_value_leaves_isSet_false :
    (parseTokens c7Parser ["prog", "--count=abc"]).1 = .INVALID_VALUE
    ∧ (parseTokens c7Parser ["prog", "--count", "abc"]).1 = .INVALID_VALUE
    ∧ ¬((getArg (parseTokens c7Parser ["prog", "--count=abc"]).2 0).isSet = true
        ∧ (getArg (parseTokens c7Parser ["prog", "--count", "abc"]).2 0).isSet = true) := by
  decide

/-- C7 amended: for a declared non-flag option whose name contains no
`=` and is not `help`, and a value token that is not itself `--help` or
`-h`, the single token `--name=value` and the token pair `--name value`
produce the same `ParseResult` and the same final parser state (hence
the same stored value and the same `isSet`, which is true exactly when
the value parses and validates). -/
theorem c7_long_inline_equiv (P : ParserState) (prog n v : String) (i : Nat)
    (hn : '=' ∉ n.data) (hnh : n ≠ "help")
    (hv1 : v ≠ "--help") (hv2 : v ≠ "-h")
    (hfind : mapFind P.longMap n = some i)
    (hk : (getArg P i).kind ≠ .kBool) :
    parseTokens P [prog, "--" ++ n ++ "=" ++ v] = parseTokens P [prog, "--" ++ n, v] := by
  have hd1 : ("--" ++ n ++ "=" ++ v).data = '-' :: '-' :: (n.data ++ '=' :: v.data) := by
    simp [String.data_append]
  have hd2 : ("--" ++ n).data = '-' :: '-' :: n.data := by
    simp [String.data_append]
  have ht1a : ("--" ++ n ++ "=" ++ v) ≠ "--help" := by
    intro hcon
    have h1 : '=' ∈ ("--help" : String).data := by
      rw [← hcon, hd1]; simp
    simp at h1
  have ht1b : ("--" ++ n ++ "=" ++ v) ≠ "-h" := by
    intro hcon
    have h1 : ("-h" : String).data = '-' :: '-' :: (n.data ++ '=' :: v.data) := by
      rw [← hcon]; exact hd1
    simp at h1
  have ht2a : ("--" ++ n) ≠ "--help" := by
    intro hcon
    have h1 : ('-' :: '-' :: n.data : List Char) = ("--help" : String).data := by
      rw [← hd2, hcon]
    apply hnh
    apply String.ext
    show n.data = ("help" : String).data
    have h2 : ("--help" : String).data = ['-', '-', 'h', 'e', 'l', 'p'] := rfl
    rw [h2] at h1
    have h3 : n.data = (['h', 'e', 'l', 'p'] : List Char) := by simpa using h1
    rw [h3]
  have ht2b : ("--" ++ n) ≠ "-h" := by
    intro hcon
    have h1 : ("-h" : String).data = '-' :: '-' :: n.data := by rw [← hcon]; exact hd2
    simp at h1
  have hQ : ∀ Q : ParserState, Q.longMap = P.longMap → Q.args = P.args →
      parseLoop Q [("--" ++ n ++ "=" ++ v)] [] = parseLoop Q [("--" ++ n), v] [] := by
    intro Q hQl hQa
    have hfindQ : mapFind Q.longMap n = some i := by rw [hQl]; exact hfind
    have hkQ : (getArg Q i).kind ≠ .kBool := by
      unfold getArg; rw [hQa]; exact hk
    have hbQ : isBoolAt Q i = false := by
      simp [isBoolAt, hkQ]
    conv_lhs => rw [parseLoop]
    conv_rhs => rw [parseLoop]
    rw [classify_long Q _ _ hd1, classify_long Q _ _ hd2,
        splitAtEq_append n.data v.data hn, splitAtEq_of_not_mem n.data hn]
    have hneta : (⟨n.data⟩ : String) = n := rfl
    have hveta : (⟨v.data⟩ : String) = v := rfl
    simp only [hneta, hveta, Option.map_some', Option.map_none']
    simp only [dispatchOpt, hfindQ, hbQ]
    cases hres : (argParseStr (getArg Q i) v).1 <;> simp [hres, hbQ]
  simp only [parseTokens]
  have hscan1 : ([("--" ++ n ++ "=" ++ v)].any (fun t => t == "--help" || t == "-h")) = false := by
    simp [ht1a, ht1b]
  have hscan2 : ([("--" ++ n), v].any (fun t => t == "--help" || t == "-h")) = false := by
    simp [ht2a, ht2b, hv1, hv2]
  simp only [List.drop_succ_cons, List.drop_zero, hscan1, hscan2]
  rw [hQ { P with lastError := "" } rfl rfl]

/-- C7 witness: the equivalence at the concrete option `count` and value
`"7"` on `c7Parser`. -/
theorem c7_long_inline_equiv_witness :
    parseTokens c7Parser ["prog", "--" ++ "count" ++ "=" ++ "7"]
      = parseTokens c7Parser ["prog", "--" ++ "count", "7"] :=
  c7_long_inline_equiv c7Parser "prog" "count" "7" 0
    (by decide) (by decide) (by decide) (by decide) (by decide) (by decide)

/-- A parser with one boolean flag declared with an EMPTY short name. -/
def c9Parser : ParserState :=
  (mkParser "test_app" "").addArgument .kBool "verbose" "" "" false (.vB false)

/-- C9 counterexample: `addArgument` writes `shortNameMap_[shortName]`
unconditionally, so declaring `verbose` with an empty short name binds
the empty key - and a lone `-` token (whose extracted short name is the
empty string) then RESOLVES to `verbose` and returns `SUCCESS` with the
flag set, not `UNKNOWN_OPTION` as the claim states. -/
theorem c9_lone_dash_resolves_to_empty_shortname :
    mapFind c9Parser.shortMap "" = some 0
    ∧ (parseTokens c9Parser ["prog", "-"]).1 = .SUCCESS
    ∧ (getArg (parseTokens c9Parser ["prog", "-"]).2 0).value = .vB true
    ∧ (getArg (parseTokens c9Parser ["prog", "-"]).2 0).isSet = true
    ∧ (parseTokens c9Parser ["prog", "-"]).1 ≠ .UNKNOWN_OPTION := by
  decide

/-- C9 amended: `addArgument` registers the declaration in the
short-name map for every short name, the empty string included; a lone
`-` token therefore resolves through the empty-string key - dispatching
to the argument registered under `""` (setting it, when it is a flag) -
and is reported as an unknown option only when no declaration ever bound
the empty short name. -/
theorem c9_shortmap_registration_unconditional :
    (∀ (P : ParserState) (kind : ArgKind) (nm sn ds : String) (req : Bool) (dflt : Value),
        (P.addArgument kind nm sn ds req dflt).shortMap
          = mapInsert P.shortMap sn P.args.length)
  ∧ (∀ (P : ParserState) (rest pos : List String) (i : Nat),
        mapFind P.shortMap "" = some i → (getArg P i).kind = .kBool →
        parseLoop P ("-" :: rest) pos
          = parseLoop (setArg P i { getArg P i with value := .vB true, isSet := true }) rest pos)
  ∧ (∀ (P : ParserState) (rest pos : List String),
        mapFind P.shortMap "" = none →
        parseLoop P ("-" :: rest) pos
          = .err .UNKNOWN_OPTION { P with lastError := "Unknown option: -" }) := by
  refine ⟨?_, ?_, ?_⟩
  · intro P kind nm sn ds req dflt
    rfl
  · intro P rest pos i hf hb
    rw [parseLoop, classify_dash]
    have hbb : isBoolAt P i = true := by simp [isBoolAt, hb]
    simp [dispatchOpt, hf, hbb, argParseStr, hb]
  · intro P rest pos hf
    rw [parseLoop, classify_dash]
    simp [dispatchOpt, hf]

/-- C9 witness: the lone-dash dispatch at `c9Parser`, whose flag was
declared with the empty short name. -/
theorem c9_shortmap_registration_unconditional_witness :
    parseLoop c9Parser ["-"] []
      = parseLoop (setArg c9Parser 0 { getArg c9Parser 0 with value := .vB true, isSet := true })
          [] [] :=
  c9_shortmap_registration_unconditional.2.1 c9Parser [] [] 0 (by decide) (by decide)

/-- A flag declared through the parser with `required = true` and the
declared default `false` - the combination on which `Argument<bool>`'s
swapped constructor parameters become visible. -/
def c8Parser : ParserState :=
  (mkParser "test_app" "").addArgument .kBool "force" "f" "" true (.vB false)

/-- C8 counterexample: the flag `force` is declared with default
`false`, yet after a parse call that never mentions it, `getValue()` is
`true` - `addArgument` (lines 1305-1306) passes
`(required, defaultValue)` into `Argument<bool>`'s swapped
`(defaultValue, required)` parameters (lines 349-356), so the stored
initial value is the `required` argument and the declared default is
discarded. The claim's `getValue() == d` is therefore false for the
boolean flag kind. -/
theorem c8_bool_default_discarded :
    (parseTokens c8Parser ["prog"]).1 = .SUCCESS
    ∧ (getArg (parseTokens c8Parser ["prog"]).2 0).isSet = false
    ∧ (getArg (parseTokens c8Parser ["prog"]).2 0).value = .vB true
    ∧ ¬((getArg (parseTokens c8Parser ["prog"]).2 0).value = .vB false) := by
  decide

/-- C8 amended: an optional argument that no token of the parse call
targets - no long token names it, no short or grouped or inline-value
token resolves to it - is left with `isSet` false and its
construction-time value still stored; that constructed value is the
declared default for every kind except the boolean flag kind, where the
swapped `Argument<bool>` constructor parameters make it the `required`
argument instead (the declared default is discarded), so
`getValue() == d` holds for flags only when `d` equals the declared
`required` flag. -/
theorem c8_unmentioned_argument_untouched :
    (∀ (P : ParserState) (argv : List String) (i : Nat) (a : Arg),
        P.args.get? i = some a → a.isSet = false →
        (∀ t ∈ argv.drop 1, tokenTargets P t i = false) →
        (parseTokens P argv).2.args.get? i = some a
        ∧ ((parseTokens P argv).2.args.get? i).map Arg.isSet = some false
        ∧ ((parseTokens P argv).2.args.get? i).map Arg.value = some a.value)
  ∧ (∀ (P : ParserState) (kind : ArgKind) (nm sn ds : String) (req : Bool) (dflt : Value),
        kind ≠ .kBool →
        ((P.addArgument kind nm sn ds req dflt).args.get? P.args.length).map Arg.value
          = some dflt)
  ∧ (∀ (P : ParserState) (nm sn ds : String) (req : Bool) (dflt : Value),
        ((P.addArgument .kBool nm sn ds req dflt).args.get? P.args.length).map Arg.value
          = some (.vB req)) := by
  refine ⟨?_, ?_, ?_⟩
  · intro P argv i a ha hset hmention
    have key : (parseTokens P argv).2.args.get? i = some a := by
      have hP1 : argsFrame i P { P with lastError := "" } := ⟨rfl, rfl, rfl, fun _ => rfl⟩
      simp only [parseTokens]
      rcases hhelp : (argv.drop 1).any (fun t => t == "--help" || t == "-h") with _ | _
      · simp only [hhelp, Bool.false_eq_true, if_false]
        have hlf := parseLoop_frame i P (argv.drop 1).length (argv.drop 1) le_rfl
          { P with lastError := "" } [] hP1 hmention
        rcases hpl : parseLoop { P with lastError := "" } (argv.drop 1) []
          with ⟨r, P'⟩ | ⟨P', posVals⟩
        · rw [hpl] at hlf
          simp only [hpl]
          exact hlf.1.trans ha
        · rw [hpl] at hlf
          simp only [hpl]
          rcases hb2 : (bindPositionals P'.posArgs posVals).2.2 with _ | rm
          · simp only [hb2]
            rcases hemp : (bindPositionals P'.posArgs posVals).2.1.isEmpty with _ | _
            · simp only [hemp, Bool.not_false, Bool.false_eq_true, if_false]
              exact hlf.1.trans ha
            · simp only [hemp, Bool.not_true]
              rcases hfm : findMissingRequired P'.args with _ | nm
              · simp only [hfm]
                exact hlf.1.trans ha
              · simp only [hfm]
                exact hlf.1.trans ha
          · simp only [hb2]
            exact hlf.1.trans ha
      · simp only [hhelp, if_true]
        exact ha
    refine ⟨key, ?_, ?_⟩ <;> rw [key] <;> simp [hset]
  · intro P kind nm sn ds req dflt hk
    simp only [ParserState.addArgument]
    rw [List.get?_concat_length]
    simp [hk]
  · intro P nm sn ds req dflt
    simp only [ParserState.addArgument]
    rw [List.get?_concat_length]
    simp

/-- The `input` declaration of `demoParser`, as constructed fresh. -/
def inputArg : Arg :=
  { name := "input", shortName := "i", description := "", required := true,
    kind := .kStr, validator := none, value := .vS "", isSet := false }

/-- C8 witness: after `parse` on `--verbose` alone, the never-mentioned
`input` argument of the demo parser still reports its constructed
state, and a freshly declared flag with `required = true` and declared
default `false` is constructed holding `true`. -/
theorem c8_unmentioned_argument_untouched_witness :
    ((parseTokens demoParser ["prog", "--verbose"]).2.args.get? 3 = some inputArg
      ∧ ((parseTokens demoParser ["prog", "--verbose"]).2.args.get? 3).map Arg.isSet = some false
      ∧ ((parseTokens demoParser ["prog", "--verbose"]).2.args.get? 3).map Arg.value
          = some inputArg.value)
    ∧ (((mkParser "t" "").addArgument .kBool "x" "x" "" true (.vB false)).args.get? 0).map
        Arg.value = some (.vB true) :=
  ⟨c8_unmentioned_argument_untouched.1 demoParser ["prog", "--verbose"] 3 inputArg
      rfl rfl (by decide),
   c8_unmentioned_argument_untouched.2.2 (mkParser "t" "") "x" "x" "" true (.vB false)⟩

end ArgsParser
